import Mathlib

namespace EnvDot

/-- Python-style whitespace test on a character (the characters stripped by
`str.strip()`: tab, LF, VT, FF, CR, space). -/
def isSpaceC (c : Char) : Bool :=
  c.toNat = 32 || (9 ≤ c.toNat && c.toNat ≤ 13)

/-- ASCII decimal digit test. -/
def isDigitC (c : Char) : Bool :=
  48 ≤ c.toNat && c.toNat ≤ 57

/-- ASCII lower-casing of a single character, as Python `str.lower()` acts on
the ASCII range (the only range the token sets use). -/
def charLower (c : Char) : Char :=
  if 65 ≤ c.toNat ∧ c.toNat ≤ 90 then Char.ofNat (c.toNat + 32) else c

/-- Python `str.lower()` restricted to ASCII case folding. -/
def pyLower (s : String) : String :=
  ⟨s.data.map charLower⟩

/-- Python `str.strip()`: drop leading and trailing whitespace. -/
def pyStrip (s : String) : String :=
  ⟨((s.data.dropWhile isSpaceC).reverse.dropWhile isSpaceC).reverse⟩

/-- Typed values handled by `TypeDetector` (spec §3: one of None, bool, int,
float, string).  A float is carried as its decimal textual form, since the
spec fixes only "standard decimal textual form" as its serialization and the
detector keeps the trimmed literal. -/
inductive TypedValue where
  | none
  | bool (b : Bool)
  | int (n : Int)
  | float (s : String)
  | str (s : String)
deriving DecidableEq, Repr

/-- The truthy token set of spec §4.1 step 2, which is also the literal tuple
tested by `getenv_typed` for `cast_type=bool` (src/envdot/helpers.py line 120). -/
def truthyTokens : List String := ["true", "yes", "on", "1"]

/-- The falsy token set of spec §4.1 step 2. -/
def falsyTokens : List String := ["false", "no", "off", "0"]

/-- Digit character for one decimal digit (only used with an argument < 10). -/
def digitChar (d : Nat) : Char := Char.ofNat (48 + d)

/-- Value of a list of ASCII digit characters read as a decimal numeral. -/
def digitsToNat (l : List Char) : Nat :=
  l.foldl (fun acc c => acc * 10 + (c.toNat - 48)) 0

/-- Decimal digit expansion of a natural number, most significant digit first;
fuel-structured so that it reduces definitionally. -/
def natToDigitsAux : Nat → Nat → List Char
  | 0, _ => []
  | fuel + 1, n =>
    if n < 10 then [digitChar n]
    else natToDigitsAux fuel (n / 10) ++ [digitChar (n % 10)]

/-- Decimal digit expansion of a natural number (`123 ↦ ['1','2','3']`). -/
def natToDigits (n : Nat) : List Char := natToDigitsAux (n + 1) n

/-- Standard decimal textual form of an integer, as used by `TypeDetector.to_string`
for numbers (spec §4.1). -/
def intToString : Int → String
  | Int.ofNat n => ⟨natToDigits n⟩
  | Int.negSucc m => ⟨'-' :: natToDigits (m + 1)⟩

/-- Does the (trimmed) string match an integer literal: optional leading `-`,
then one or more digits (spec §4.1 step 3)? -/
def isIntLit (t : String) : Bool :=
  match t.data with
  | [] => false
  | c :: cs =>
    if c = '-' then !cs.isEmpty && cs.all isDigitC
    else (c :: cs).all isDigitC

/-- Numeric value of a string accepted by `isIntLit`. -/
def parseIntLit (t : String) : Int :=
  match t.data with
  | [] => 0
  | c :: cs =>
    if c = '-' then -(digitsToNat cs : Int)
    else (digitsToNat (c :: cs) : Int)

/-- The characters of a candidate numeric literal after the optional leading
minus sign. -/
def floatBody (l : List Char) : List Char :=
  match l with
  | [] => []
  | c :: cs => if c = '-' then cs else c :: cs

/-- Does the (trimmed) string match a floating-point literal: optional leading
`-`, then digits with at most one `.` and at least one digit (spec §4.1 step 4)? -/
def isFloatLit (t : String) : Bool :=
  let b := floatBody t.data
  b.any isDigitC && b.all (fun c => isDigitC c || c = '.') && b.count '.' ≤ 1

/-- Modelled from the spec: `TypeDetector.auto_detect` applied to an already
trimmed value.  `TypeDetector` lives in `envdot/core.py`, which is not among
the provided sources; the branch structure and precedence are taken verbatim
from spec §4.1 (None tokens, boolean tokens, integer literal, float literal,
string), with trimming factored out into `auto_detect`. -/
def detectTrimmed (t : String) : TypedValue :=
  if t = "" ∨ pyLower t = "none" ∨ pyLower t = "null" then .none
  else if pyLower t ∈ truthyTokens then .bool true
  else if pyLower t ∈ falsyTokens then .bool false
  else if isIntLit t then .int (parseIntLit t)
  else if isFloatLit t then .float t
  else .str t

/-- Modelled from the spec: `TypeDetector.auto_detect(raw)` (spec §4.1):
always strips leading/trailing whitespace, then applies the branch precedence
of `detectTrimmed`. -/
def auto_detect (raw : String) : TypedValue :=
  detectTrimmed (pyStrip raw)

/-- Modelled from the spec: `TypeDetector.to_string` (spec §4.1): `None → ""`,
booleans to lower-case `"true"`/`"false"`, numbers via their standard decimal
textual form, strings unchanged. -/
def to_string : TypedValue → String
  | .none => ""
  | .bool true => "true"
  | .bool false => "false"
  | .int n => intToString n
  | .float s => s
  | .str s => s

/-- Well-formedness of a float carried in its decimal textual form: after an
optional leading `-`, at least one digit, only digits and points, and exactly
one point (so that the literal is not an integer literal).  This is the shape
`to_string` is specified to produce for floats. -/
def FloatWf (s : String) : Prop :=
  (floatBody s.data).any isDigitC = true ∧
  (floatBody s.data).all (fun c => isDigitC c || c = '.') = true ∧
  (floatBody s.data).count '.' = 1

instance (s : String) : Decidable (FloatWf s) := by
  unfold FloatWf
  infer_instance

/-- The typed values for which the `auto_detect`/`to_string` round trip can
hold: everything except the integers `0`/`1` (whose textual forms are claimed
by the boolean branch) and the strings whose own detection is not the string
itself (e.g. `"true"`, `"none"`, `"123"`); floats must carry a well-formed
decimal literal. -/
def RoundTripOK : TypedValue → Prop
  | .none => True
  | .bool _ => True
  | .int n => n ≠ 0 ∧ n ≠ 1
  | .float s => FloatWf s
  | .str s => auto_detect s = .str s

instance (v : TypedValue) : Decidable (RoundTripOK v) := by
  cases v <;> (unfold RoundTripOK; infer_instance)

/-- A Python value as returned by `getenv_typed` (src/envdot/helpers.py): a
scalar `TypedValue`, or the list/tuple of strings produced by the
`cast_type=list` / `cast_type=tuple` branches. -/
inductive PyVal where
  | scalar (v : TypedValue)
  | list (xs : List String)
  | tuple (xs : List String)
deriving DecidableEq, Repr

/-- Python `None`, the default value of `getenv_typed`'s `default` parameter. -/
def pyNone : PyVal := .scalar .none

/-- The closed set of `cast_type` arguments exercised by the package
(spec §9 models `cast_type` as this closed enumeration). -/
inductive CastType where
  | bool
  | int
  | float
  | str
  | list
  | tuple
deriving DecidableEq, Repr

/-- Python `int(s)` on a string: strip, optional sign, one or more digits;
anything else raises `ValueError` (modelled as `none`).  Exotic accepted forms
(digit-group underscores, non-ASCII digits) are out of scope. -/
def pyIntOfString (s : String) : Option Int :=
  match (pyStrip s).data with
  | [] => none
  | c :: cs =>
    if c = '-' then
      if !cs.isEmpty && cs.all isDigitC then some (-(digitsToNat cs : Int)) else none
    else if c = '+' then
      if !cs.isEmpty && cs.all isDigitC then some (digitsToNat cs : Int) else none
    else if (c :: cs).all isDigitC then some (digitsToNat (c :: cs) : Int)
    else none

/-- Python `int(f)` on a float carried as its decimal literal: truncation
toward zero, i.e. the signed value of the digits before the point. -/
def floatTrunc (s : String) : Int :=
  match s.data with
  | [] => 0
  | c :: cs =>
    if c = '-' then -(digitsToNat (cs.takeWhile isDigitC) : Int)
    else (digitsToNat ((c :: cs).takeWhile isDigitC) : Int)

/-- Python `float(s)` on a string: strip, then accept an optional sign and
digits with at most one point (the value is kept in its literal decimal form;
`inf`/`nan` spellings are out of scope).  Failure models `ValueError`. -/
def pyFloatOfString (s : String) : Option String :=
  let t := pyStrip s
  if isFloatLit t then some t else none

/-- Is a float (carried as a decimal literal) non-zero, i.e. truthy under
Python `bool(f)`? -/
def floatNonzero (s : String) : Bool :=
  s.data.any (fun c => isDigitC c && c ≠ '0')

/-- `re.split(",| ", value, re.I)` as written in src/envdot/helpers.py lines
124/127: because `re.I` (= 2) is passed positionally it is the `maxsplit`
argument, so only the first `k = 2` occurrences of a comma or space split the
string and the remainder is kept whole. -/
def reSplitAux (k : Nat) (cur : List Char) : List Char → List String
  | [] => [⟨cur.reverse⟩]
  | c :: rest =>
    if (c = ',' ∨ c = ' ') ∧ 0 < k then
      ⟨cur.reverse⟩ :: reSplitAux (k - 1) [] rest
    else
      reSplitAux k (c :: cur) rest

/-- The fragment list the list/tuple branches of `getenv_typed` start from:
split on comma or space with maxsplit 2 (see `reSplitAux`). -/
def reSplitMax2 (raw : String) : List String :=
  reSplitAux 2 [] raw.data

/-- The list comprehension `[i.strip() for i in re.split(",| ", value, re.I) if i]`
of src/envdot/helpers.py line 124: keep non-empty fragments, then strip each. -/
def pyListSplit (raw : String) : List String :=
  (reSplitMax2 raw).filter (fun i => i ≠ "") |>.map pyStrip

/-- One attempted cast of `getenv_typed` (the body of the `try:` block at
src/envdot/helpers.py lines 115-130): `none` models the `ValueError`/`TypeError`
that the surrounding `except` catches.
  * bool: an already-boolean detected value passes through, a string is tested
    against the truthy token tuple, anything else goes through `bool(...)`;
  * int/float: Python `int(...)`/`float(...)` on the detected value;
  * str: Python `str(...)` (note `str(None) = "None"`, `str(True) = "True"`);
  * list: the comma/space split of the raw string (maxsplit 2, see `pyListSplit`);
  * tuple: `tuple(typed_value)` — for a detected string this is the tuple of its
    characters, and for every other detected value a `TypeError` (the computed
    split is assigned to a dead local and never used). -/
def tryCast (ct : CastType) (raw : String) (typed : TypedValue) : Option PyVal :=
  match ct with
  | .bool =>
    some (.scalar (.bool (match typed with
      | .bool b => b
      | .str s => decide (pyLower s ∈ truthyTokens)
      | .none => false
      | .int n => decide (n ≠ 0)
      | .float s => floatNonzero s)))
  | .int =>
    match typed with
    | .bool b => some (.scalar (.int (if b then 1 else 0)))
    | .int n => some (.scalar (.int n))
    | .float s => some (.scalar (.int (floatTrunc s)))
    | .str s => (pyIntOfString s).map (fun n => .scalar (.int n))
    | .none => none
  | .float =>
    match typed with
    | .bool b => some (.scalar (.float (if b then "1.0" else "0.0")))
    | .int n => some (.scalar (.float (intToString n ++ ".0")))
    | .float s => some (.scalar (.float s))
    | .str s => (pyFloatOfString s).map (fun t => .scalar (.float t))
    | .none => none
  | .str =>
    some (.scalar (.str (match typed with
      | .none => "None"
      | .bool true => "True"
      | .bool false => "False"
      | .int n => intToString n
      | .float s => s
      | .str s => s)))
  | .list => some (.list (pyListSplit raw))
  | .tuple =>
    match typed with
    | .str s => some (.tuple (s.data.map (fun c => (⟨[c]⟩ : String))))
    | _ => none

/-- The body of `getenv_typed` (src/envdot/helpers.py lines 103-135) after the
raw value has been read through the saved original accessor: an absent key
returns the default unchanged; otherwise the value is auto-detected, an
explicit cast is attempted if requested, and a failed cast yields
`default if default is not None else typed_value`. -/
def getenv_typed_core (value : Option String) (default : PyVal) (cast : Option CastType) : PyVal :=
  match value with
  | none => default
  | some v =>
    let typed := auto_detect v
    match cast with
    | none => .scalar typed
    | some ct =>
      match tryCast ct v typed with
      | some r => r
      | none => if default = pyNone then .scalar typed else default

/-- The process environment map (spec §3 models it as a mutable string-keyed
map), embedded as an association list in which the first binding of a key is
its current value. -/
abbrev EnvMap : Type := List (String × String)

/-- Read a key from the environment map (`os.getenv`'s underlying lookup,
returning `None` for an absent key). -/
def lookupEnv : EnvMap → String → Option String
  | [], _ => none
  | (k', v) :: rest, k => if k' = k then some v else lookupEnv rest k

/-- `getenv_typed(key, default, cast_type)` over a given environment map
(src/envdot/helpers.py lines 77-135). -/
def getenv_typed (env : EnvMap) (key : String) (default : PyVal) (cast : Option CastType) : PyVal :=
  getenv_typed_core (lookupEnv env key) default cast

/-- `setenv_typed(key, value)` (src/envdot/helpers.py line 153):
`os.environ[key] = TypeDetector.to_string(value)`. -/
def setenv_typed (env : EnvMap) (key : String) (value : TypedValue) : EnvMap :=
  (key, to_string value) :: env

/-- Which function a process-wide getenv slot currently holds: the plain
untyped primitive (`os.getenv` as found before any override), or the typed
override `getenv_typed`. -/
inductive GetenvAttr where
  | original
  | typed
deriving DecidableEq, Repr

/-- The process-wide mutable state the override machinery touches: the
environment map, the current `os.getenv` attribute, and the
`os._env_dot_original_getenv` slot (absent until the module first loads). -/
structure OsState where
  env : EnvMap
  getenvAttr : GetenvAttr
  origSlot : Option GetenvAttr
deriving DecidableEq

/-- A process in which the module has not been imported yet and `os.getenv`
still is the plain primitive. -/
def pristine (env : EnvMap) : OsState :=
  { env := env, getenvAttr := .original, origSlot := none }

/-- Module import time (src/envdot/helpers.py lines 73-74):
`_original_getenv = os.getenv if not hasattr(os, '_env_dot_original_getenv')
else os._env_dot_original_getenv; os._env_dot_original_getenv = _original_getenv`
— the slot receives the current `os.getenv` only if it was never written. -/
def moduleLoad (st : OsState) : OsState :=
  { st with origSlot := some (st.origSlot.getD st.getenvAttr) }

/-- `replace_os_getenv()` (src/envdot/helpers.py line 230): `os.getenv = getenv_typed`. -/
def replace_os_getenv (st : OsState) : OsState :=
  { st with getenvAttr := .typed }

/-- `restore_os_getenv()` (src/envdot/helpers.py line 237):
`os.getenv = os._env_dot_original_getenv`; reading a never-written slot is an
`AttributeError`, modelled as `none`. -/
def restore_os_getenv (st : OsState) : Option OsState :=
  st.origSlot.map (fun f => { st with getenvAttr := f })

/-- `n` successive calls of `replace_os_getenv`. -/
def installN : Nat → OsState → OsState
  | 0, st => st
  | n + 1, st => replace_os_getenv (installN n st)

/-- Calling `getenv_typed` in a given process state: the read at
src/envdot/helpers.py line 103 goes through `os._env_dot_original_getenv`, so
the call is only defined when that slot holds the plain primitive (`none`
models the `AttributeError` of a never-written slot, and the divergence that
calling itself through the slot would be). -/
def getenv_typed_st (st : OsState) (key : String) (default : PyVal) (cast : Option CastType) : Option PyVal :=
  match st.origSlot with
  | some GetenvAttr.original => some (getenv_typed_core (lookupEnv st.env key) default cast)
  | _ => none

/-- Calling `os.getenv(key)` in a given process state: the plain primitive
returns the raw string (or `None`), the installed override runs
`getenv_typed` with its default arguments. -/
def call_os_getenv (st : OsState) (key : String) : Option PyVal :=
  match st.getenvAttr with
  | .original =>
    some (.scalar (match lookupEnv st.env key with
      | some v => .str v
      | none => .none))
  | .typed => getenv_typed_st st key pyNone none

theorem isDigitC_bounds {c : Char} (h : isDigitC c = true) : 48 ≤ c.toNat ∧ c.toNat ≤ 57 := by
  simpa [isDigitC] using h

theorem dropWhile_eq_self_of_all {p : Char → Bool} {l : List Char}
    (h : ∀ c ∈ l, p c = false) : l.dropWhile p = l := by
  cases l with
  | nil => rfl
  | cons c cs => simp [List.dropWhile_cons, h c (List.mem_cons_self c cs)]

theorem pyStrip_eq_self {t : String} (h : ∀ c ∈ t.data, isSpaceC c = false) :
    pyStrip t = t := by
  unfold pyStrip
  rw [dropWhile_eq_self_of_all h, dropWhile_eq_self_of_all, List.reverse_reverse]
  · intro c hc
    exact h c (List.mem_reverse.mp hc)

theorem pyLower_eq_self {t : String} (h : ∀ c ∈ t.data, c.toNat < 65 ∨ 90 < c.toNat) :
    pyLower t = t := by
  unfold pyLower
  have : ∀ l : List Char, (∀ c ∈ l, c.toNat < 65 ∨ 90 < c.toNat) → l.map charLower = l := by
    intro l
    induction l with
    | nil => intro _; rfl
    | cons c cs ih =>
      intro hl
      have hc := hl c (List.mem_cons_self c cs)
      have hcond : ¬(65 ≤ c.toNat ∧ c.toNat ≤ 90) := by omega
      simp [charLower, hcond, ih (fun x hx => hl x (List.mem_cons_of_mem c hx))]
  rw [this t.data h]

theorem digitChar_toNat {d : Nat} (h : d < 10) : (digitChar d).toNat = 48 + d := by
  interval_cases d <;> decide

theorem digitChar_isDigit {d : Nat} (h : d < 10) : isDigitC (digitChar d) = true := by
  interval_cases d <;> decide

theorem digitsToNat_append (l : List Char) (c : Char) :
    digitsToNat (l ++ [c]) = 10 * digitsToNat l + (c.toNat - 48) := by
  unfold digitsToNat
  rw [List.foldl_append]
  simp [Nat.mul_comm]

theorem natToDigitsAux_spec : ∀ fuel n, n < fuel → digitsToNat (natToDigitsAux fuel n) = n := by
  intro fuel
  induction fuel with
  | zero => intro n h; omega
  | succ f ih =>
    intro n h
    unfold natToDigitsAux
    by_cases h10 : n < 10
    · simp only [if_pos h10]
      show digitsToNat [digitChar n] = n
      unfold digitsToNat
      simp [digitChar_toNat h10]
    · have hdiv : n / 10 < n := Nat.div_lt_self (by omega) (by omega)
      simp only [if_neg h10]
      rw [digitsToNat_append, ih (n / 10) (by omega),
        digitChar_toNat (Nat.mod_lt n (by omega))]
      omega

theorem natToDigits_spec (n : Nat) : digitsToNat (natToDigits n) = n :=
  natToDigitsAux_spec (n + 1) n (Nat.lt_succ_self n)

theorem natToDigitsAux_all_digits :
    ∀ fuel n, n < fuel → (natToDigitsAux fuel n).all isDigitC = true := by
  intro fuel
  induction fuel with
  | zero => intro n h; omega
  | succ f ih =>
    intro n h
    unfold natToDigitsAux
    by_cases h10 : n < 10
    · simp [if_pos h10, digitChar_isDigit h10]
    · have hdiv : n / 10 < n := Nat.div_lt_self (by omega) (by omega)
      simp only [if_neg h10, List.all_append, Bool.and_eq_true]
      exact ⟨ih (n / 10) (by omega), by
        simp [digitChar_isDigit (Nat.mod_lt n (show 0 < 10 by omega))]⟩

theorem natToDigits_all_digits (n : Nat) : (natToDigits n).all isDigitC = true :=
  natToDigitsAux_all_digits (n + 1) n (Nat.lt_succ_self n)

theorem natToDigitsAux_ne_nil : ∀ fuel n, n < fuel → natToDigitsAux fuel n ≠ [] := by
  intro fuel
  induction fuel with
  | zero => intro n h; omega
  | succ f ih =>
    intro n h
    unfold natToDigitsAux
    by_cases h10 : n < 10
    · simp [if_pos h10]
    · simp [if_neg h10]

theorem natToDigits_ne_nil (n : Nat) : natToDigits n ≠ [] :=
  natToDigitsAux_ne_nil (n + 1) n (Nat.lt_succ_self n)

theorem data_mk (l : List Char) : (⟨l⟩ : String).data = l := rfl

theorem string_ne_of_data {s t : String} (h : s.data ≠ t.data) : s ≠ t :=
  fun he => h (congrArg String.data he)

theorem isDigitC_not_minus {c : Char} (h : isDigitC c = true) : c ≠ '-' := by
  intro he
  subst he
  revert h
  decide

theorem parseIntLit_intToString (n : Int) : parseIntLit (intToString n) = n := by
  cases n with
  | ofNat m =>
    unfold intToString parseIntLit
    rw [data_mk]
    cases hd : natToDigits m with
    | nil => exact absurd hd (natToDigits_ne_nil m)
    | cons c cs =>
      have hall := natToDigits_all_digits m
      rw [hd, List.all_cons, Bool.and_eq_true] at hall
      have hcm : c ≠ '-' := isDigitC_not_minus hall.1
      simp only [if_neg hcm]
      rw [← hd, natToDigits_spec]
      rfl
  | negSucc m =>
    unfold intToString parseIntLit
    rw [data_mk]
    simp only [if_pos rfl]
    rw [natToDigits_spec]
    rfl

theorem intToString_injective {a b : Int} (h : intToString a = intToString b) : a = b := by
  have ha := parseIntLit_intToString a
  rw [h, parseIntLit_intToString] at ha
  omega

theorem intToString_chars (n : Int) :
    ∀ c ∈ (intToString n).data, isDigitC c = true ∨ c = '-' := by
  cases n with
  | ofNat m =>
    intro c hc
    rw [intToString, data_mk] at hc
    exact Or.inl ((List.all_eq_true.mp (natToDigits_all_digits m)) c hc)
  | negSucc m =>
    intro c hc
    rw [intToString, data_mk] at hc
    rcases List.mem_cons.mp hc with h | h
    · exact Or.inr h
    · exact Or.inl ((List.all_eq_true.mp (natToDigits_all_digits (m + 1))) c h)

theorem isIntLit_intToString (n : Int) : isIntLit (intToString n) = true := by
  cases n with
  | ofNat m =>
    unfold intToString isIntLit
    rw [data_mk]
    cases hd : natToDigits m with
    | nil => exact absurd hd (natToDigits_ne_nil m)
    | cons c cs =>
      have hall := natToDigits_all_digits m
      rw [hd] at hall
      have hc : isDigitC c = true ∧ cs.all isDigitC = true := by
        rw [List.all_cons, Bool.and_eq_true] at hall
        exact hall
      simp [if_neg (isDigitC_not_minus hc.1), hall]
  | negSucc m =>
    unfold intToString isIntLit
    rw [data_mk]
    simp [natToDigits_ne_nil (m + 1), natToDigits_all_digits (m + 1)]

theorem intToString_ne_nil (n : Int) : (intToString n).data ≠ [] := by
  cases n with
  | ofNat m => rw [intToString, data_mk]; exact natToDigits_ne_nil m
  | negSucc m => rw [intToString, data_mk]; simp

theorem intlike_not_token {t : String}
    (hchars : ∀ c ∈ t.data, isDigitC c = true ∨ c = '-')
    (tok : String) (c : Char) (hc : c ∈ tok.data)
    (hcd : isDigitC c = false) (hcm : c ≠ '-') (h : t = tok) : False := by
  subst h
  rcases hchars c hc with hd | hm
  · rw [hd] at hcd; cases hcd
  · exact hcm hm

theorem intlike_no_space {t : String}
    (hchars : ∀ c ∈ t.data, isDigitC c = true ∨ c = '-') :
    ∀ c ∈ t.data, isSpaceC c = false := by
  intro c hc
  rcases hchars c hc with h | h
  · have := isDigitC_bounds h
    simp [isSpaceC]
    omega
  · subst h; decide

theorem intlike_no_upper {t : String}
    (hchars : ∀ c ∈ t.data, isDigitC c = true ∨ c = '-') :
    ∀ c ∈ t.data, c.toNat < 65 ∨ 90 < c.toNat := by
  intro c hc
  rcases hchars c hc with h | h
  · have := isDigitC_bounds h
    omega
  · subst h; decide

theorem detect_int_string (t : String)
    (hne : t.data ≠ [])
    (hchars : ∀ c ∈ t.data, isDigitC c = true ∨ c = '-')
    (hint : isIntLit t = true)
    (h1 : t ≠ "1") (h0 : t ≠ "0") :
    auto_detect t = .int (parseIntLit t) := by
  have hstrip : pyStrip t = t := pyStrip_eq_self (intlike_no_space hchars)
  have hlower : pyLower t = t := pyLower_eq_self (intlike_no_upper hchars)
  unfold auto_detect detectTrimmed
  rw [hstrip, hlower]
  rw [if_neg ?hb1, if_neg ?hb2, if_neg ?hb3, if_pos hint]
  case hb1 =>
    rintro (h | h | h)
    · exact hne (congrArg String.data h)
    · exact intlike_not_token hchars "none" 'n' (by decide) (by decide) (by decide) h
    · exact intlike_not_token hchars "null" 'n' (by decide) (by decide) (by decide) h
  case hb2 =>
    intro hm
    simp only [truthyTokens, List.mem_cons, List.not_mem_nil, or_false] at hm
    rcases hm with h | h | h | h
    · exact intlike_not_token hchars "true" 't' (by decide) (by decide) (by decide) h
    · exact intlike_not_token hchars "yes" 'y' (by decide) (by decide) (by decide) h
    · exact intlike_not_token hchars "on" 'o' (by decide) (by decide) (by decide) h
    · exact h1 h
  case hb3 =>
    intro hm
    simp only [falsyTokens, List.mem_cons, List.not_mem_nil, or_false] at hm
    rcases hm with h | h | h | h
    · exact intlike_not_token hchars "false" 'f' (by decide) (by decide) (by decide) h
    · exact intlike_not_token hchars "no" 'n' (by decide) (by decide) (by decide) h
    · exact intlike_not_token hchars "off" 'o' (by decide) (by decide) (by decide) h
    · exact h0 h

theorem roundtrip_int {n : Int} (h0 : n ≠ 0) (h1 : n ≠ 1) :
    auto_detect (intToString n) = .int n := by
  rw [detect_int_string (intToString n) (intToString_ne_nil n) (intToString_chars n)
    (isIntLit_intToString n) ?h1 ?h0, parseIntLit_intToString]
  case h1 =>
    intro h
    exact h1 (intToString_injective (h.trans (by decide : ("1" : String) = intToString 1)))
  case h0 =>
    intro h
    exact h0 (intToString_injective (h.trans (by decide : ("0" : String) = intToString 0)))

theorem floatBody_cons (a : Char) (l : List Char) :
    floatBody (a :: l) = if a = '-' then l else a :: l := rfl

theorem floatBody_sublist (l : List Char) : ∀ c ∈ floatBody l, c ∈ l := by
  cases l with
  | nil => intro c hc; exact absurd hc (by simp [floatBody])
  | cons a rest =>
    intro c hc
    rw [floatBody_cons] at hc
    by_cases ha : a = '-'
    · rw [if_pos ha] at hc
      exact List.mem_cons_of_mem a hc
    · rwa [if_neg ha] at hc

theorem floatlike_chars {s : String} (h : FloatWf s) :
    ∀ c ∈ s.data, isDigitC c = true ∨ c = '.' ∨ c = '-' := by
  obtain ⟨-, hall, -⟩ := h
  have hbody : ∀ c ∈ floatBody s.data, isDigitC c = true ∨ c = '.' := by
    intro c hc
    have := List.all_eq_true.mp hall c hc
    rcases Bool.or_eq_true_iff.mp this with h | h
    · exact Or.inl h
    · exact Or.inr (by simpa using h)
  cases hd : s.data with
  | nil => intro c hc; simp [hd] at hc
  | cons a rest =>
    intro c hc
    rw [hd] at hbody
    by_cases ha : a = '-'
    · rcases List.mem_cons.mp (hd ▸ hc : c ∈ a :: rest) with h | h
      · exact Or.inr (Or.inr (h.trans ha))
      · have : c ∈ floatBody (a :: rest) := by
          rw [floatBody_cons, if_pos ha]; exact h
        rcases hbody c this with h | h
        · exact Or.inl h
        · exact Or.inr (Or.inl h)
    · have : c ∈ floatBody (a :: rest) := by
        rw [floatBody_cons, if_neg ha]; exact hd ▸ hc
      rcases hbody c this with h | h
      · exact Or.inl h
      · exact Or.inr (Or.inl h)

theorem floatlike_no_space {s : String} (h : FloatWf s) :
    ∀ c ∈ s.data, isSpaceC c = false := by
  intro c hc
  rcases floatlike_chars h c hc with h | h | h
  · have := isDigitC_bounds h
    simp [isSpaceC]
    omega
  · subst h; decide
  · subst h; decide

theorem floatlike_no_upper {s : String} (h : FloatWf s) :
    ∀ c ∈ s.data, c.toNat < 65 ∨ 90 < c.toNat := by
  intro c hc
  rcases floatlike_chars h c hc with h | h | h
  · have := isDigitC_bounds h
    omega
  · subst h; decide
  · subst h; decide

theorem floatlike_dot_mem {s : String} (h : FloatWf s) : '.' ∈ floatBody s.data := by
  obtain ⟨-, -, hcount⟩ := h
  have : 0 < (floatBody s.data).count '.' := by omega
  exact List.count_pos_iff.mp this

theorem isIntLit_data {s : String} {c : Char} {cs : List Char} (hd : s.data = c :: cs) :
    isIntLit s = if c = '-' then !cs.isEmpty && cs.all isDigitC else (c :: cs).all isDigitC := by
  unfold isIntLit
  rw [hd]

theorem floatlike_not_intLit {s : String} (h : FloatWf s) : isIntLit s = false := by
  have hdot := floatlike_dot_mem h
  cases hd : s.data with
  | nil => unfold isIntLit; rw [hd]
  | cons c cs =>
    rw [isIntLit_data hd]
    rw [hd, floatBody_cons] at hdot
    by_cases hc : c = '-'
    · rw [if_pos hc] at hdot
      rw [if_pos hc]
      have hcs : cs.all isDigitC = false := by
        apply Bool.eq_false_iff.mpr
        intro hall
        have := List.all_eq_true.mp hall '.' hdot
        revert this
        decide
      simp [hcs]
    · rw [if_neg hc] at hdot
      rw [if_neg hc]
      apply Bool.eq_false_iff.mpr
      intro hall
      have := List.all_eq_true.mp hall '.' hdot
      revert this
      decide

theorem floatlike_isFloatLit {s : String} (h : FloatWf s) : isFloatLit s = true := by
  obtain ⟨hany, hall, hcount⟩ := h
  unfold isFloatLit
  simp only [Bool.and_eq_true, decide_eq_true_eq]
  exact ⟨⟨hany, hall⟩, by omega⟩

theorem floatlike_ne_token {s : String} (h : FloatWf s)
    (tok : String) (c : Char) (hc : c ∈ tok.data)
    (hcd : isDigitC c = false) (hcdot : c ≠ '.') (hcm : c ≠ '-')
    (he : s = tok) : False := by
  subst he
  rcases floatlike_chars h c hc with hx | hx | hx
  · rw [hx] at hcd; cases hcd
  · exact hcdot hx
  · exact hcm hx

theorem roundtrip_float {s : String} (h : FloatWf s) : auto_detect s = .float s := by
  have hstrip : pyStrip s = s := pyStrip_eq_self (floatlike_no_space h)
  have hlower : pyLower s = s := pyLower_eq_self (floatlike_no_upper h)
  have hnonnil : s.data ≠ [] := by
    intro hd
    have := floatlike_dot_mem h
    rw [hd] at this
    simp [floatBody] at this
  have hdigit01 : s ≠ "1" ∧ s ≠ "0" := by
    constructor <;> (intro he; have := floatlike_dot_mem h; rw [he] at this; revert this; decide)
  unfold auto_detect detectTrimmed
  rw [hstrip, hlower]
  rw [if_neg ?hb1, if_neg ?hb2, if_neg ?hb3, if_neg ?hb4, if_pos (floatlike_isFloatLit h)]
  case hb1 =>
    rintro (he | he | he)
    · exact hnonnil (congrArg String.data he)
    · exact floatlike_ne_token h "none" 'n' (by decide) (by decide) (by decide) (by decide) he
    · exact floatlike_ne_token h "null" 'n' (by decide) (by decide) (by decide) (by decide) he
  case hb2 =>
    intro hm
    simp only [truthyTokens, List.mem_cons, List.not_mem_nil, or_false] at hm
    rcases hm with he | he | he | he
    · exact floatlike_ne_token h "true" 't' (by decide) (by decide) (by decide) (by decide) he
    · exact floatlike_ne_token h "yes" 'y' (by decide) (by decide) (by decide) (by decide) he
    · exact floatlike_ne_token h "on" 'o' (by decide) (by decide) (by decide) (by decide) he
    · exact hdigit01.1 he
  case hb3 =>
    intro hm
    simp only [falsyTokens, List.mem_cons, List.not_mem_nil, or_false] at hm
    rcases hm with he | he | he | he
    · exact floatlike_ne_token h "false" 'f' (by decide) (by decide) (by decide) (by decide) he
    · exact floatlike_ne_token h "no" 'n' (by decide) (by decide) (by decide) (by decide) he
    · exact floatlike_ne_token h "off" 'o' (by decide) (by decide) (by decide) (by decide) he
    · exact hdigit01.2 he
  case hb4 =>
    simp [floatlike_not_intLit h]

theorem truthy_not_noneish {t : String} (hm : pyLower t ∈ truthyTokens) :
    ¬(t = "" ∨ pyLower t = "none" ∨ pyLower t = "null") := by
  rintro (h | h | h)
  · subst h; revert hm; decide
  · rw [h] at hm; revert hm; decide
  · rw [h] at hm; revert hm; decide

theorem falsy_not_noneish {t : String} (hm : pyLower t ∈ falsyTokens) :
    ¬(t = "" ∨ pyLower t = "none" ∨ pyLower t = "null") := by
  rintro (h | h | h)
  · subst h; revert hm; decide
  · rw [h] at hm; revert hm; decide
  · rw [h] at hm; revert hm; decide

theorem falsy_not_truthy {t : String} (hm : pyLower t ∈ falsyTokens) :
    pyLower t ∉ truthyTokens := by
  intro hmt
  simp only [falsyTokens, List.mem_cons, List.not_mem_nil, or_false] at hm
  rcases hm with h | h | h | h <;> (rw [h] at hmt; revert hmt; decide)

theorem detectTrimmed_bool_true_iff (t : String) :
    detectTrimmed t = .bool true ↔ pyLower t ∈ truthyTokens := by
  unfold detectTrimmed
  by_cases h1 : t = "" ∨ pyLower t = "none" ∨ pyLower t = "null"
  · rw [if_pos h1]
    constructor
    · intro h; cases h
    · intro hm; exact absurd h1 (truthy_not_noneish hm)
  · rw [if_neg h1]
    by_cases h2 : pyLower t ∈ truthyTokens
    · rw [if_pos h2]
      exact iff_of_true rfl h2
    · rw [if_neg h2]
      constructor
      · intro h
        exfalso
        revert h
        split_ifs <;> intro h <;> cases h
      · intro hm; exact absurd hm h2

theorem detectTrimmed_bool_false_iff (t : String) :
    detectTrimmed t = .bool false ↔ pyLower t ∈ falsyTokens := by
  unfold detectTrimmed
  by_cases h1 : t = "" ∨ pyLower t = "none" ∨ pyLower t = "null"
  · rw [if_pos h1]
    constructor
    · intro h; cases h
    · intro hm; exact absurd h1 (falsy_not_noneish hm)
  · rw [if_neg h1]
    by_cases h2 : pyLower t ∈ truthyTokens
    · rw [if_pos h2]
      constructor
      · intro h; cases h
      · intro hm; exact absurd h2 (falsy_not_truthy hm)
    · rw [if_neg h2]
      by_cases h3 : pyLower t ∈ falsyTokens
      · rw [if_pos h3]
        exact iff_of_true rfl h3
      · rw [if_neg h3]
        constructor
        · intro h
          exfalso
          revert h
          split_ifs <;> intro h <;> cases h
        · intro hm; exact absurd hm h3

theorem installN_env (n : Nat) (st : OsState) : (installN n st).env = st.env := by
  induction n with
  | zero => rfl
  | succ k ih => simp [installN, replace_os_getenv, ih]

theorem installN_origSlot (n : Nat) (st : OsState) : (installN n st).origSlot = st.origSlot := by
  induction n with
  | zero => rfl
  | succ k ih => simp [installN, replace_os_getenv, ih]

theorem installN_getenvAttr_succ (n : Nat) (st : OsState) :
    (installN (n + 1) st).getenvAttr = .typed := rfl

/-- Claim C1: a raw string whose trimmed form is, case-insensitively, one of
`true`/`yes`/`on`/`1` auto-detects to boolean true, and one of
`false`/`no`/`off`/`0` to boolean false (stated as an equivalence); in
particular the bare literals `"1"` and `"0"` are claimed by the boolean branch
before the integer branch; and the same truthy token set decides
string-to-boolean coercion under `cast_type=bool`. -/
theorem claim1_boolean_token_detection :
    (∀ raw : String, auto_detect raw = .bool true ↔ pyLower (pyStrip raw) ∈ truthyTokens) ∧
    (∀ raw : String, auto_detect raw = .bool false ↔ pyLower (pyStrip raw) ∈ falsyTokens) ∧
    auto_detect "1" = .bool true ∧
    auto_detect "0" = .bool false ∧
    (∀ raw s : String,
        tryCast .bool raw (.str s)
          = some (.scalar (.bool (decide (pyLower s ∈ truthyTokens))))) := by
  refine ⟨fun raw => ?_, fun raw => ?_, by decide, by decide, fun raw s => rfl⟩
  · exact detectTrimmed_bool_true_iff (pyStrip raw)
  · exact detectTrimmed_bool_false_iff (pyStrip raw)

/-- Witness for C1 at concrete inputs. -/
theorem claim1_boolean_token_detection_witness :
    auto_detect "  Yes " = .bool true ∧ auto_detect "OFF" = .bool false :=
  ⟨(claim1_boolean_token_detection.1 "  Yes ").mpr (by decide),
   (claim1_boolean_token_detection.2.1 "OFF").mpr (by decide)⟩

/-- Claim C2 (amended): `auto_detect (to_string v) = v` for `None`, booleans,
integers other than `0`/`1`, well-formed floats, and those strings whose own
detection is the string itself; the claim's blanket round trip for every
trimmed string fails (see the counterexample). -/
theorem claim2_roundtrip (v : TypedValue) (h : RoundTripOK v) :
    auto_detect (to_string v) = v := by
  cases v with
  | none => decide
  | bool b => cases b <;> decide
  | int n => exact roundtrip_int h.1 h.2
  | float s => exact roundtrip_float h
  | str s => exact h

/-- Witness for C2 at concrete inputs of every kind. -/
theorem claim2_roundtrip_witness :
    RoundTripOK (TypedValue.int 8080) ∧
    auto_detect (to_string (TypedValue.int 8080)) = TypedValue.int 8080 ∧
    RoundTripOK (TypedValue.float "45.67") ∧
    auto_detect (to_string (TypedValue.float "45.67")) = TypedValue.float "45.67" ∧
    RoundTripOK (TypedValue.str "hello") ∧
    auto_detect (to_string (TypedValue.str "hello")) = TypedValue.str "hello" :=
  ⟨by decide, claim2_roundtrip _ (by decide), by decide, claim2_roundtrip _ (by decide),
   by decide, claim2_roundtrip _ (by decide)⟩

/-- Counterexample to C2 as stated: the supported typed value `"true"` (a
string already in trimmed form, and not one of the permitted exceptions
`"1"`/`"0"`) does not round-trip — its serialization re-detects as boolean. -/
theorem claim2_roundtrip_counterexample :
    to_string (TypedValue.str "true") = "true" ∧
    auto_detect (to_string (TypedValue.str "true")) = TypedValue.bool true ∧
    auto_detect (to_string (TypedValue.str "true")) ≠ TypedValue.str "true" := by
  decide

/-- Claim C3: installing the override any number of times and then restoring
once puts the generic accessor back to the exact pre-override function; the
slot holding the pristine primitive is never touched by an installation and a
second module load does not overwrite it. -/
theorem claim3_restore_returns_exact_original (env : EnvMap) (a : GetenvAttr) (n : Nat) :
    restore_os_getenv
        (installN n (moduleLoad { env := env, getenvAttr := a, origSlot := none }))
      = some { env := env, getenvAttr := a, origSlot := some a } ∧
    (∀ st : OsState, (replace_os_getenv st).origSlot = st.origSlot) ∧
    (∀ st : OsState, moduleLoad (moduleLoad st) = moduleLoad st) := by
  refine ⟨?_, fun st => rfl, fun st => rfl⟩
  have hm : moduleLoad { env := env, getenvAttr := a, origSlot := none }
      = { env := env, getenvAttr := a, origSlot := some a } := rfl
  rw [hm]
  have h1 := installN_origSlot n { env := env, getenvAttr := a, origSlot := some a }
  have h2 := installN_env n { env := env, getenvAttr := a, origSlot := some a }
  unfold restore_os_getenv
  rw [h1, h2]
  rfl

/-- Claim C4: after the module has loaded, `getenv_typed` reads only through
the saved original slot for every key and every number of installations (so
the call is defined — no self-recursion — and yields the typed read of the
untouched environment), calling the installed `os.getenv` terminates with
that same result, and the function's behaviour ignores the current `os.getenv`
attribute entirely. -/
theorem claim4_override_reads_saved_original (env : EnvMap) (n : Nat) (k : String)
    (d : PyVal) (c : Option CastType) :
    getenv_typed_st (installN n (moduleLoad (pristine env))) k d c
      = some (getenv_typed_core (lookupEnv env k) d c) ∧
    call_os_getenv (installN (n + 1) (moduleLoad (pristine env))) k
      = some (getenv_typed_core (lookupEnv env k) pyNone none) ∧
    (∀ (st : OsState) (a : GetenvAttr),
        getenv_typed_st { st with getenvAttr := a } k d c = getenv_typed_st st k d c) := by
  have first : ∀ (m : Nat) (d' : PyVal) (c' : Option CastType),
      getenv_typed_st (installN m (moduleLoad (pristine env))) k d' c'
        = some (getenv_typed_core (lookupEnv env k) d' c') := by
    intro m d' c'
    unfold getenv_typed_st
    rw [installN_origSlot, installN_env]
    rfl
  refine ⟨first n d c, ?_, fun st a => rfl⟩
  have hcall : call_os_getenv (installN (n + 1) (moduleLoad (pristine env))) k
      = getenv_typed_st (installN (n + 1) (moduleLoad (pristine env))) k pyNone none := rfl
  rw [hcall, first (n + 1) pyNone none]

/-- Claim C10: the result of `getenv_typed` does not depend on whether the
global override is installed — replacing `os.getenv` leaves every
`getenv_typed` result unchanged, and after any number of installations the
result equals the pre-installation result over the same environment map. -/
theorem claim10_result_independent_of_override (st : OsState) (env : EnvMap) (n : Nat)
    (k : String) (d : PyVal) (c : Option CastType) :
    getenv_typed_st (replace_os_getenv st) k d c = getenv_typed_st st k d c ∧
    getenv_typed_st (installN n (moduleLoad (pristine env))) k d c
      = getenv_typed_st (moduleLoad (pristine env)) k d c := by
  refine ⟨rfl, ?_⟩
  unfold getenv_typed_st
  rw [installN_origSlot, installN_env]

/-- Claim C5 (amended): when the explicit cast of a present value fails, a
non-None default is returned in its place, and with no default (i.e. the
default `None`) `getenv_typed` silently returns the auto-detected value — it
does not raise. -/
theorem claim5_failed_cast_behaviour (v : String) (d : PyVal) (ct : CastType)
    (h : tryCast ct v (auto_detect v) = none) :
    getenv_typed_core (some v) d (some ct)
      = if d = pyNone then .scalar (auto_detect v) else d := by
  simp only [getenv_typed_core, h]

/-- Witness for C5: a failing int cast with and without a supplied default. -/
theorem claim5_failed_cast_behaviour_witness :
    tryCast .int "hello" (auto_detect "hello") = none ∧
    getenv_typed_core (some "hello") (.scalar (.int 5)) (some .int) = .scalar (.int 5) ∧
    getenv_typed_core (some "hello") pyNone (some .int) = .scalar (.str "hello") := by
  refine ⟨by decide, ?_, ?_⟩
  · rw [claim5_failed_cast_behaviour "hello" (.scalar (.int 5)) .int (by decide)]
    decide
  · rw [claim5_failed_cast_behaviour "hello" pyNone .int (by decide)]
    decide

/-- Counterexample to C5 as stated: for the stored value `"hello"` with
`cast_type=int` and no default, the conversion fails but `getenv_typed`
returns the detected string `"hello"` in its place — nothing propagates to
the caller (the function is total; the `except` clause swallows the error). -/
theorem claim5_failed_cast_counterexample :
    tryCast .int "hello" (auto_detect "hello") = none ∧
    getenv_typed [("STRING_VALUE", "hello")] "STRING_VALUE" pyNone (some .int)
      = .scalar (.str "hello") := by
  decide

/-- Claim C6: the `cast_type=list` branch splits the raw value on only the
first two comma/space separators, because `re.I` (numerically 2) is passed as
`re.split`'s `maxsplit` argument, and the `cast_type=tuple` branch returns
`tuple(typed_value)` — the characters of the detected string — ignoring the
computed split; the full split-trim-drop sequence the claim describes is not
produced. -/
theorem claim6_split_code_behaviour :
    getenv_typed [("HOSTS", "a,b,c,d")] "HOSTS" pyNone (some .list)
      = .list ["a", "b", "c,d"] ∧
    (PyVal.list ["a", "b", "c,d"] ≠ .list ["a", "b", "c", "d"]) ∧
    getenv_typed [("PAIR", "a,b")] "PAIR" pyNone (some .tuple)
      = .tuple ["a", ",", "b"] ∧
    (PyVal.tuple ["a", ",", "b"] ≠ .tuple ["a", "b"]) ∧
    getenv_typed [("TABBED", "a,\t")] "TABBED" pyNone (some .list)
      = .list ["a", ""] := by
  decide

/-- Claim C7 (amended): an absent key always yields exactly the supplied
default (for every cast); a present key with no cast yields the detected
value, independent of the default; but a present key can also yield the
default, when an explicit cast fails and the default is non-None (see the
counterexample), so "returns the default iff absent" does not hold. -/
theorem claim7_default_iff_absent (env : EnvMap) (k : String) (d : PyVal) :
    (∀ c : Option CastType, lookupEnv env k = none → getenv_typed env k d c = d) ∧
    (∀ v : String, lookupEnv env k = some v →
        getenv_typed env k d none = .scalar (auto_detect v)) := by
  constructor
  · intro c h
    simp only [getenv_typed, h, getenv_typed_core]
  · intro v h
    simp only [getenv_typed, h, getenv_typed_core]

/-- Witness for C7: an absent key yields the default, a present key yields
its detected value. -/
theorem claim7_default_iff_absent_witness :
    lookupEnv [("A", "2")] "MISSING" = none ∧
    getenv_typed [("A", "2")] "MISSING" (.scalar (.str "D")) none = .scalar (.str "D") ∧
    lookupEnv [("A", "2")] "A" = some "2" ∧
    getenv_typed [("A", "2")] "A" (.scalar (.str "D")) none = .scalar (.int 2) := by
  refine ⟨by decide, (claim7_default_iff_absent [("A", "2")] "MISSING" _).1 none (by decide),
    by decide, ?_⟩
  rw [(claim7_default_iff_absent [("A", "2")] "A" (.scalar (.str "D"))).2 "2" (by decide)]
  decide

/-- Counterexample to C7 as stated: the key is present yet the lookup yields
the supplied default, because the requested int cast of `"hello"` fails and a
non-None default was supplied. -/
theorem claim7_default_iff_absent_counterexample :
    lookupEnv [("K", "hello")] "K" = some "hello" ∧
    getenv_typed [("K", "hello")] "K" (.scalar (.int 5)) (some .int) = .scalar (.int 5) := by
  decide

/-- Claim C8: `setenv_typed` stores exactly the canonical string
`to_string(v)` under the key, with the documented canonical forms for `True`,
`False`, `None`, `8080` and plain strings. -/
theorem claim8_set_stores_canonical_string :
    (∀ (env : EnvMap) (k : String) (v : TypedValue),
        lookupEnv (setenv_typed env k v) k = some (to_string v)) ∧
    to_string (.bool true) = "true" ∧
    to_string (.bool false) = "false" ∧
    to_string .none = "" ∧
    to_string (.int 8080) = "8080" ∧
    (∀ s : String, to_string (.str s) = s) := by
  refine ⟨fun env k v => ?_, by decide, by decide, by decide, by decide, fun s => rfl⟩
  simp [setenv_typed, lookupEnv]

/-- Claim C9: for an absent key, `getenv_typed` returns the supplied default
object itself, unchanged, for every default and every cast type — the cast is
never applied to the default. -/
theorem claim9_absent_key_returns_default (env : EnvMap) (key : String)
    (d : PyVal) (cast : Option CastType) (h : lookupEnv env key = none) :
    getenv_typed env key d cast = d := by
  simp only [getenv_typed, h, getenv_typed_core]

/-- Witness for C9: a missing key with `cast_type=int` and the string default
`"x"` yields the string `"x"`; with no default it yields `None`. -/
theorem claim9_absent_key_returns_default_witness :
    lookupEnv [] "MISSING" = none ∧
    getenv_typed [] "MISSING" (.scalar (.str "x")) (some .int) = .scalar (.str "x") ∧
    getenv_typed [] "MISSING" pyNone none = pyNone :=
  ⟨rfl, claim9_absent_key_returns_default [] "MISSING" _ _ rfl,
   claim9_absent_key_returns_default [] "MISSING" _ _ rfl⟩

end EnvDot
